import Mathlib

/-!
Verification of the claude_modular_temporal workflow orchestration code.

The development shallowly embeds the TypeScript source in `activities.ts`
(activity functions `executeClaudeCode`, `runTests`, `createSnapshot`,
`estimateCost`, helper functions `estimateTokens`, `calculateCost`,
`parseTestResults`) and the workflow file (`developLLMWrapperWorkflow`,
`parallelFeatureDevelopment`) as pure Lean functions.  External effects
(the `claude` subprocess, `npm test`, git commands, wall-clock durations,
signal arrival) are passed in explicitly as inputs, so every run of the
embedded workflow is a function of an explicit environment.
-/

namespace ClaudeTemporal

/-- Result record of one `executeClaudeCode` activity call, mirroring the
`ClaudeCodeResult` interface of the source. -/
structure ClaudeCodeResult where
  output : String
  tokensUsed : Nat
  cost : ℚ
  duration : Nat
  filesModified : List String
  linesAdded : Nat
  linesRemoved : Nat
  deriving Repr, DecidableEq

/-- Mirror of `estimateTokens`: `Math.ceil(text.length / 4)`. -/
def estimateTokens (text : String) : Nat :=
  (text.length + 3) / 4

/-- Mirror of the pricing table inside `calculateCost`: dollars per 1K
tokens for input and output. -/
def pricing : String → Option (ℚ × ℚ)
  | "claude-sonnet-4-5" => some (3 / 1000, 15 / 1000)
  | "claude-opus-4" => some (15 / 1000, 75 / 1000)
  | _ => none

/-- Mirror of `calculateCost`: an unknown model falls back to the
sonnet rates, and the cost assumes a 50/50 input/output split. -/
def calculateCost (tokens : Nat) (model : String) : ℚ :=
  let rates := (pricing model).getD ((pricing "claude-sonnet-4-5").getD (3 / 1000, 15 / 1000))
  ((tokens : ℚ) / 1000) * ((rates.1 + rates.2) / 2)

/-- Mirror of `executeClaudeCode`.  The subprocess interaction is
abstracted: `execResult` is the outcome of the `claude` CLI invocation
(`.ok` carries the combined stdout/stderr text, `.error` the exception
message), and the git-derived data (`filesModified`, line stats) and the
measured duration are inputs.  On subprocess failure the activity throws
`Claude Code execution failed: ...`, modelled as `.error`. -/
def executeClaudeCode (prompt : String) (execResult : Except String String)
    (filesModified : List String) (gitStats : Nat × Nat) (elapsed : Nat) :
    Except String ClaudeCodeResult :=
  match execResult with
  | .ok stdout =>
      let tokensUsed := estimateTokens (prompt ++ stdout)
      let cost := calculateCost tokensUsed "claude-sonnet-4-5"
      .ok { output := stdout, tokensUsed := tokensUsed, cost := cost,
            duration := elapsed, filesModified := filesModified,
            linesAdded := gitStats.1, linesRemoved := gitStats.2 }
  | .error msg => .error ("Claude Code execution failed: " ++ msg)

/-- Abstraction of the JSON document that `parseTestResults` reads out of
the test runner stdout: the fields `JSON.parse` is asked for.  A stdout
that does not parse as JSON is represented by `none` at the call site. -/
structure JestReport where
  numTotalTests : Nat
  numPassedTests : Nat
  numFailedTests : Nat
  messages : List String
  deriving Repr, DecidableEq

/-- Aggregate counters returned by `parseTestResults`. -/
structure ParsedResults where
  totalTests : Nat
  passed : Nat
  failed : Nat
  errors : List String
  deriving Repr, DecidableEq

/-- Mirror of `parseTestResults`: on a JSON parse failure every counter is
zero and a fixed message is placed in `errors`. -/
def parseTestResults : Option JestReport → ParsedResults
  | some j =>
      { totalTests := j.numTotalTests, passed := j.numPassedTests,
        failed := j.numFailedTests, errors := j.messages }
  | none =>
      { totalTests := 0, passed := 0, failed := 0,
        errors := ["Failed to parse test results"] }

/-- Result record of one `runTests` activity call. -/
structure TestRunResult where
  success : Bool
  totalTests : Nat
  passed : Nat
  failed : Nat
  duration : Nat
  errors : List String
  deriving Repr, DecidableEq

/-- Mirror of `runTests`.  The `npm test` invocation is abstracted:
`.ok` carries the parse outcome of its stdout (`none` when the stdout is
not valid JSON), `.error` carries the exception message of a failing
command.  The catch branch returns a failed result instead of throwing,
so the embedded function is total. -/
def runTests (cmdResult : Except String (Option JestReport)) (elapsed : Nat) :
    TestRunResult :=
  match cmdResult with
  | .ok stdout =>
      let r := parseTestResults stdout
      { success := r.failed == 0, totalTests := r.totalTests,
        passed := r.passed, failed := r.failed,
        duration := elapsed, errors := r.errors }
  | .error msg =>
      { success := false, totalTests := 0, passed := 0, failed := 1,
        duration := elapsed, errors := [msg] }

/-- Mirror of `createSnapshot`: the snapshot id is derived from the
current time; the git interaction (`git add -A` followed by an
empty-allowed commit) is abstracted as `gitResult`.  The catch branch
returns the id anyway, so the function is total and ignores the git
outcome. -/
def createSnapshot (now : Nat) (gitResult : Except String Unit) : String :=
  let snapshotId := "snapshot-" ++ toString now
  match gitResult with
  | .ok _ => snapshotId
  | .error _ => snapshotId

/-- Mirror of the `CostEstimate` interface. -/
structure CostEstimate where
  estimated : ℚ
  model : String
  tokensEstimate : Nat
  deriving Repr, DecidableEq

/-- Mirror of the completion multiplier table in `estimateCost`. -/
def completionMultiplier : String → Nat
  | "low" => 2
  | "medium" => 4
  | _ => 8

/-- Mirror of `estimateCost`. -/
def estimateCost (prompt : String) (complexity : String) : CostEstimate :=
  let promptTokens := estimateTokens prompt
  let totalTokens := promptTokens + promptTokens * completionMultiplier complexity
  { estimated := calculateCost totalTokens "claude-sonnet-4-5",
    model := "claude-sonnet-4-5", tokensEstimate := totalTokens }

/-- Mirror of the `DevelopmentStage` interface in the workflow file. -/
structure DevelopmentStage where
  name : String
  prompt : String
  requiresApproval : Bool
  criticalPath : Bool
  deriving Repr, DecidableEq

/-- Mirror of the `WorkflowState` interface: `approved` is `none` for the
JS `null`, `some true` / `some false` for a recorded decision. -/
structure WorkflowState where
  currentStage : String
  totalTokensUsed : Nat
  totalCost : ℚ
  testsPassedCount : Nat
  snapshots : List String
  approved : Option Bool
  deriving Repr, DecidableEq

/-- Initial `WorkflowState` literal at the top of
`developLLMWrapperWorkflow`. -/
def initState : WorkflowState :=
  { currentStage := "initializing", totalTokensUsed := 0, totalCost := 0,
    testsPassedCount := 0, snapshots := [], approved := none }

/-- Mirror of the two signal handlers installed by `setHandler`: the
approve signal stores `true`, the reject signal stores `false`.  `d` is
the delivered decision. -/
def recordDecision (d : Bool) (s : WorkflowState) : WorkflowState :=
  if d then { s with approved := some true } else { s with approved := some false }

/-- Branch taken by the engine at the approval gate, as a function of the
recorded state: the workflow proceeds only when `state.approved` is
`true` (the source throws when the condition timed out or when
`state.approved === false`). -/
def approvalVerdict (s : WorkflowState) : Bool :=
  s.approved == some true

/-- Model of the `condition(pred, deadline)` primitive used at the
approval gate.  `signal` is the approval signal delivery: `some (t, d)`
means a decision `d` is recorded at time `t` (relative to entering the
gate), `none` means no signal is ever delivered.  The wait resolves at
the signal time with the recorded decision when the signal arrives by
the deadline, and otherwise resolves at exactly the deadline with no
decision recorded (the JS `condition` returning `false`). -/
def conditionWait (signal : Option (Nat × Bool)) (deadline : Nat) : Nat × Option Bool :=
  match signal with
  | some (t, d) => if t ≤ deadline then (t, some d) else (deadline, none)
  | none => (deadline, none)

deriving instance DecidableEq for Except

/-- Environment of one loop iteration of `developLLMWrapperWorkflow`:
every external interaction the iteration performs, passed as data. -/
structure StageEnv where
  now : Nat
  gitSnapshot : Except String Unit
  claudeExec : Except String String
  filesModified : List String
  gitStats : Nat × Nat
  claudeDuration : Nat
  testCmd : Except String (Option JestReport)
  testDuration : Nat
  approvalSignal : Option (Nat × Bool)
  deriving Repr, DecidableEq

/-- Observable engine actions of one workflow run.  `restoreCalled` is
modelled from the spec: the source repository contains no snapshot
restore function at all, and this constructor stands for an invocation
of one, so that restore-call counts can be stated; no function of this
development ever emits it. -/
inductive EngineEvent where
  | running (stage : String)
  | snapshotCreated (id : String)
  | restoreCalled (id : String)
  | usageRecorded (tokens : Nat) (cost : ℚ)
  | testsRun (stage : String) (success : Bool)
  | awaitingApproval (stage : String) (resolveTime : Nat)
  | stageMetrics (stage : String)
  | failureMetrics (stage : String) (tokens : Nat) (cost : ℚ)
  | cooldown
  deriving Repr, DecidableEq

/-- Error value carried by a workflow throw: the state at the throw and
the exception message. -/
abbrev StageError := WorkflowState × String

/-- Sequencing of two engine steps: events accumulate, an error
short-circuits (mirrors an exception propagating out of the loop body). -/
def andThen (a : List EngineEvent × Except StageError WorkflowState)
    (f : WorkflowState → List EngineEvent × Except StageError WorkflowState) :
    List EngineEvent × Except StageError WorkflowState :=
  match a with
  | (evs, .error e) => (evs, .error e)
  | (evs, .ok s) => (evs ++ (f s).1, (f s).2)

/-- Mirror of `state.currentStage = stage.name` at the top of the loop. -/
def enterStage (stage : DevelopmentStage) (s : WorkflowState) : WorkflowState :=
  { s with currentStage := stage.name }

/-- Mirror of the pre-stage snapshot block: on a critical-path stage the
snapshot id is recorded on the state; the git outcome never aborts the
stage (see `createSnapshot`). -/
def snapshotStep (stage : DevelopmentStage) (env : StageEnv) (s : WorkflowState) :
    List EngineEvent × Except StageError WorkflowState :=
  if stage.criticalPath then
    let snapshotId := createSnapshot env.now env.gitSnapshot
    ([.running stage.name, .snapshotCreated snapshotId],
     .ok { s with snapshots := s.snapshots ++ [snapshotId] })
  else ([.running stage.name], .ok s)

/-- Mirror of the `executeClaudeCode` call followed by the two usage
accumulations `state.totalTokensUsed += ...` and `state.totalCost += ...`.
A failed activity (after its retries) propagates as a workflow error. -/
def claudeStep (stage : DevelopmentStage) (env : StageEnv) (s : WorkflowState) :
    List EngineEvent × Except StageError WorkflowState :=
  match executeClaudeCode stage.prompt env.claudeExec env.filesModified
      env.gitStats env.claudeDuration with
  | .error msg => ([], .error (s, msg))
  | .ok r =>
      ([.usageRecorded r.tokensUsed r.cost],
       .ok { s with totalTokensUsed := s.totalTokensUsed + r.tokensUsed,
                    totalCost := s.totalCost + r.cost })

/-- Mirror of the post-stage validation block: skipped for the
documentation stage; on failing tests a critical-path stage with at
least one snapshot throws (the source logs the most recent snapshot id
but performs no restore call), any other stage continues without
incrementing `testsPassedCount`. -/
def verificationStep (stage : DevelopmentStage) (env : StageEnv) (s : WorkflowState) :
    List EngineEvent × Except StageError WorkflowState :=
  if stage.name = "documentation" then ([], .ok s)
  else if (runTests env.testCmd env.testDuration).success then
    ([.testsRun stage.name true],
     .ok { s with testsPassedCount := s.testsPassedCount + 1 })
  else if stage.criticalPath = true ∧ 0 < s.snapshots.length then
    ([.testsRun stage.name false],
     .error (s, "Critical stage " ++ stage.name ++ " failed tests"))
  else ([.testsRun stage.name false], .ok s)

/-- Mirror of the approval block: the developer notification has no
state effect; the gate waits on `conditionWait` and proceeds only on an
approval in time, resetting `approved` to `null`; a rejection or a
timeout throws the same error. -/
def approvalStep (deadline : Nat) (stage : DevelopmentStage) (env : StageEnv)
    (s : WorkflowState) :
    List EngineEvent × Except StageError WorkflowState :=
  if stage.requiresApproval then
    if (conditionWait env.approvalSignal deadline).2 = some true then
      ([.awaitingApproval stage.name (conditionWait env.approvalSignal deadline).1],
       .ok { s with approved := none })
    else
      ([.awaitingApproval stage.name (conditionWait env.approvalSignal deadline).1],
       .error ({ s with approved := (conditionWait env.approvalSignal deadline).2 },
               "Stage " ++ stage.name ++ " rejected by developer"))
  else ([], .ok s)

/-- Mirror of the cooldown block: a 30 s sleep once cumulative token
usage exceeds 50000. -/
def cooldownStep (s : WorkflowState) : List EngineEvent :=
  if 50000 < s.totalTokensUsed then [.cooldown] else []

/-- Mirror of the per-stage `captureMetrics` call followed by the
cooldown check. -/
def metricsStep (stage : DevelopmentStage) (s : WorkflowState) :
    List EngineEvent × Except StageError WorkflowState :=
  ([.stageMetrics stage.name] ++ cooldownStep s, .ok s)

/-- One iteration of the stage loop of `developLLMWrapperWorkflow`. -/
def processStage (deadline : Nat) (stage : DevelopmentStage) (env : StageEnv)
    (s : WorkflowState) :
    List EngineEvent × Except StageError WorkflowState :=
  andThen (snapshotStep stage env (enterStage stage s)) fun s2 =>
  andThen (claudeStep stage env s2) fun s3 =>
  andThen (verificationStep stage env s3) fun s4 =>
  andThen (approvalStep deadline stage env s4) fun s5 =>
  metricsStep stage s5

/-- The stage loop: stages run strictly in list order; a throw ends the
loop immediately. -/
def runStagesLoop (deadline : Nat) :
    List (DevelopmentStage × StageEnv) → WorkflowState →
    List EngineEvent × Except StageError WorkflowState
  | [], s => ([], .ok s)
  | (stage, env) :: rest, s =>
      match processStage deadline stage env s with
      | (evs, .error e) => (evs, .error e)
      | (evs, .ok s2) =>
          match runStagesLoop deadline rest s2 with
          | (evs2, r) => (evs ++ evs2, r)

/-- Terminal outcome of one workflow instance. -/
inductive RunOutcome where
  | completed (s : WorkflowState)
  | failed (s : WorkflowState) (msg : String)
  deriving Repr, DecidableEq

/-- Mirror of `developLLMWrapperWorkflow`: run the stage loop from the
initial state, then the final validation; every failure path goes
through the catch block, which captures a metrics record carrying the
current stage and the accumulated totals and rethrows, failing the
instance. -/
def developLLMWrapperWorkflow (deadline : Nat)
    (stagesAndEnvs : List (DevelopmentStage × StageEnv))
    (finalTestCmd : Except String (Option JestReport)) (finalTestDuration : Nat) :
    List EngineEvent × RunOutcome :=
  match runStagesLoop deadline stagesAndEnvs initState with
  | (evs, .error (s, msg)) =>
      (evs ++ [.failureMetrics s.currentStage s.totalTokensUsed s.totalCost],
       .failed s msg)
  | (evs, .ok s) =>
      let finalTests := runTests finalTestCmd finalTestDuration
      if finalTests.success then (evs, .completed s)
      else
        (evs ++ [.failureMetrics s.currentStage s.totalTokensUsed s.totalCost],
         .failed s "Final test suite failed")

/-- Tester for the restore event. -/
def isRestore : EngineEvent → Bool
  | .restoreCalled _ => true
  | _ => false

/-- Number of snapshot restore invocations in a trace. -/
def restoreCount (evs : List EngineEvent) : Nat :=
  (evs.filter isRestore).length

/-- Names carried by the `running` events of a trace, in order. -/
def runningNames (evs : List EngineEvent) : List String :=
  evs.filterMap fun e =>
    match e with
    | .running n => some n
    | _ => none

/-- State carried by either side of a step result. -/
def resultState : Except StageError WorkflowState → WorkflowState
  | .ok s => s
  | .error (s, _) => s

/-- State carried by a terminal outcome. -/
def outcomeState : RunOutcome → WorkflowState
  | .completed s => s
  | .failed s _ => s

/-- Tester for the completed outcome. -/
def isCompleted : RunOutcome → Bool
  | .completed _ => true
  | .failed _ _ => false

/-- Boolean success tester for `Except`. -/
def exceptOk {α β : Type} : Except α β → Bool
  | .ok _ => true
  | .error _ => false

/-- Premise of a fully successful loop iteration: the do-work adapter
call succeeds and, unless the stage is the documentation stage, the
post-stage test run succeeds. -/
def stageSucceeds (p : DevelopmentStage × StageEnv) : Bool :=
  exceptOk (executeClaudeCode p.1.prompt p.2.claudeExec p.2.filesModified
      p.2.gitStats p.2.claudeDuration)
    && (p.1.name == "documentation" || (runTests p.2.testCmd p.2.testDuration).success)

/-- Pointwise order on the three accumulated usage counters. -/
def counterLe (s t : WorkflowState) : Prop :=
  s.totalTokensUsed ≤ t.totalTokensUsed ∧ s.totalCost ≤ t.totalCost ∧
    s.testsPassedCount ≤ t.testsPassedCount

/-- Retry configuration shape of `proxyActivities`. -/
structure RetryPolicy where
  initialIntervalS : Nat
  backoffCoefficient : Nat
  maximumAttempts : Nat
  nonRetryableErrorTypes : List String
  deriving Repr, DecidableEq

/-- Retry configuration the workflow file passes to `proxyActivities`:
initial interval 2 s, backoff coefficient 2, maximum attempts 3.  The
source sets no `nonRetryableErrorTypes`, so the list is empty, the
Temporal default: every error type is retryable. -/
def workflowRetryConfig : RetryPolicy :=
  { initialIntervalS := 2, backoffCoefficient := 2, maximumAttempts := 3,
    nonRetryableErrorTypes := [] }

/-- Temporal attempt loop for one activity under a retry policy.
`errOf n` is the failure of attempt number `n` (`none` means the attempt
succeeds, `some (kind, msg)` means it fails with an error of the given
kind).  The fuel argument counts the attempts still allowed.  Retrying
stops when an attempt succeeds, when the error kind is listed as
non-retryable, or when the attempt count reaches the maximum. -/
def retryGo (p : RetryPolicy) (errOf : Nat → Option (String × String)) :
    Nat → Nat → Nat
  | attempt, 0 => attempt
  | attempt, fuel + 1 =>
      match errOf attempt with
      | none => attempt
      | some (kind, _) =>
          if kind ∈ p.nonRetryableErrorTypes ∨ fuel = 0 then attempt
          else retryGo p errOf (attempt + 1) fuel

/-- Number of invocation attempts performed for one activity under a
retry policy. -/
def attemptsTaken (p : RetryPolicy) (errOf : Nat → Option (String × String)) : Nat :=
  retryGo p errOf 1 p.maximumAttempts

/-- Environment of one branch of `parallelFeatureDevelopment`: the two
do-work adapter calls and the test run of that branch. -/
structure BranchEnv where
  branchCmd : Except String String
  branchFiles : List String
  branchStats : Nat × Nat
  branchDuration : Nat
  devCmd : Except String String
  devFiles : List String
  devStats : Nat × Nat
  devDuration : Nat
  testCmd : Except String (Option JestReport)
  testDuration : Nat
  deriving Repr, DecidableEq

/-- Per-branch record of the joined result of
`parallelFeatureDevelopment`. -/
structure BranchResult where
  feature : String
  branch : String
  success : Bool
  deriving Repr, DecidableEq

/-- Run-collapsing whitespace replacement: each maximal run of
whitespace characters becomes one dash, mirroring the JS
`replace`-with-global-whitespace-pattern in the branch name. -/
def collapseWhitespaceAux : Bool → List Char → List Char
  | _, [] => []
  | prevWs, c :: rest =>
      if c.isWhitespace then
        if prevWs then collapseWhitespaceAux true rest
        else '-' :: collapseWhitespaceAux true rest
      else c :: collapseWhitespaceAux false rest

/-- Branch name of branch `index`:
`feature-INDEX-FEATURE` with whitespace runs in the feature name
replaced by dashes. -/
def branchNameOf (index : Nat) (feature : String) : String :=
  "feature-" ++ toString index ++ "-" ++
    String.mk (collapseWhitespaceAux false feature.data)

/-- One branch body of `parallelFeatureDevelopment`: create the branch,
implement the feature, run the tests (which never throw), capture
metrics, and return the per-branch record.  A rejected adapter call
makes the whole branch promise reject. -/
def developBranch (feature : String) (index : Nat) (env : BranchEnv) :
    Except String BranchResult :=
  let branchName := branchNameOf index feature
  match executeClaudeCode ("Create git branch " ++ branchName ++ " and switch to it")
      env.branchCmd env.branchFiles env.branchStats env.branchDuration with
  | .error e => .error e
  | .ok _ =>
      match executeClaudeCode ("Implement feature: " ++ feature ++ ". Include tests.")
          env.devCmd env.devFiles env.devStats env.devDuration with
      | .error e => .error e
      | .ok _ =>
          let tr := runTests env.testCmd env.testDuration
          .ok { feature := feature, branch := branchName, success := tr.success }

/-- Join combinator of the coordinator, mirroring `Promise.all`: the
joined value exists only when every branch promise fulfills; any
rejection rejects the join with that error. -/
def promiseAll {α : Type} : List (Except String α) → Except String (List α)
  | [] => .ok []
  | .error e :: _ => .error e
  | .ok a :: rest =>
      match promiseAll rest with
      | .error e => .error e
      | .ok as => .ok (a :: as)

/-- Mirror of `parallelFeatureDevelopment`: one branch body per feature,
joined with `Promise.all`. -/
def parallelFeatureDevelopment (features : List String) (envs : List BranchEnv) :
    Except String (List BranchResult) :=
  promiseAll ((features.zip envs).enum.map fun p => developBranch p.2.1 p.1 p.2.2)

/-- Premise that both do-work adapter calls of a branch fulfill. -/
def branchAdaptersOk (env : BranchEnv) : Bool :=
  exceptOk env.branchCmd && exceptOk env.devCmd

/-- Concrete critical-path stage whose post-stage tests fail. -/
def c1Stage : DevelopmentStage :=
  { name := "scaffold", prompt := "p", requiresApproval := false, criticalPath := true }

/-- Concrete environment for `c1Stage`: snapshot succeeds, the do-work
call succeeds, the post-stage test run reports one failing test. -/
def c1Env : StageEnv :=
  { now := 7, gitSnapshot := .ok (), claudeExec := .ok "q",
    filesModified := ["a.ts"], gitStats := (1, 0), claudeDuration := 5,
    testCmd := .ok (some { numTotalTests := 2, numPassedTests := 1,
                           numFailedTests := 1, messages := ["boom"] }),
    testDuration := 3, approvalSignal := none }

/-- Concrete run of the workflow on `c1Stage`: a failing critical-path
stage with one snapshot created. -/
def c1Run : List EngineEvent × RunOutcome :=
  developLLMWrapperWorkflow 3600 [(c1Stage, c1Env)]
    (.ok (some { numTotalTests := 1, numPassedTests := 1,
                 numFailedTests := 0, messages := [] })) 1

/-- Concrete environment of a fully successful loop iteration. -/
def okEnv : StageEnv :=
  { now := 1, gitSnapshot := .ok (), claudeExec := .ok "ra",
    filesModified := [], gitStats := (0, 0), claudeDuration := 1,
    testCmd := .ok (some { numTotalTests := 1, numPassedTests := 1,
                           numFailedTests := 0, messages := [] }),
    testDuration := 1, approvalSignal := none }

/-- Concrete two-stage spec with no approval gates. -/
def c2Pairs : List (DevelopmentStage × StageEnv) :=
  [({ name := "alpha", prompt := "pa", requiresApproval := false, criticalPath := true }, okEnv),
   ({ name := "beta", prompt := "pb", requiresApproval := false, criticalPath := false }, okEnv)]

/-- Concrete passing final validation input. -/
def passingTest : Except String (Option JestReport) :=
  .ok (some { numTotalTests := 1, numPassedTests := 1,
              numFailedTests := 0, messages := [] })

/-- Concrete stage requiring approval. -/
def c3Stage : DevelopmentStage :=
  { name := "core-implementation", prompt := "pc", requiresApproval := true,
    criticalPath := false }

/-- Concrete environment where no approval signal is ever delivered. -/
def c3Env : StageEnv :=
  { okEnv with approvalSignal := none }

/-- Concrete branch environment whose adapter calls fulfill and whose
tests pass. -/
def okBranchEnv : BranchEnv :=
  { branchCmd := .ok "b", branchFiles := [], branchStats := (0, 0),
    branchDuration := 1, devCmd := .ok "d", devFiles := [], devStats := (1, 1),
    devDuration := 2,
    testCmd := .ok (some { numTotalTests := 1, numPassedTests := 1,
                           numFailedTests := 0, messages := [] }),
    testDuration := 1 }

/-- Concrete branch environment whose adapter calls fulfill and whose
tests fail. -/
def failTestBranchEnv : BranchEnv :=
  { okBranchEnv with
    testCmd := .ok (some { numTotalTests := 1, numPassedTests := 0,
                           numFailedTests := 1, messages := ["x"] }) }

/-- Concrete branch environment whose feature-implementation adapter
call rejects. -/
def rejectBranchEnv : BranchEnv :=
  { okBranchEnv with devCmd := .error "boom" }

/-- Concrete feature list for the coordinator examples. -/
def c8Features : List String := ["alpha", "beta", "gamma"]

/-- Branch environments where branch 1 has a rejecting adapter call. -/
def c8RejectEnvs : List BranchEnv := [okBranchEnv, rejectBranchEnv, okBranchEnv]

/-- Branch environments where every adapter call fulfills and branch 1
always fails verification. -/
def c8OkEnvs : List BranchEnv := [okBranchEnv, failTestBranchEnv, okBranchEnv]

/-! Helper lemmas. -/

theorem restoreCount_append (a b : List EngineEvent) :
    restoreCount (a ++ b) = restoreCount a + restoreCount b := by
  simp [restoreCount, List.filter_append]

theorem restoreCount_andThen (a : List EngineEvent × Except StageError WorkflowState)
    (f : WorkflowState → List EngineEvent × Except StageError WorkflowState)
    (ha : restoreCount a.1 = 0) (hf : ∀ s, restoreCount (f s).1 = 0) :
    restoreCount (andThen a f).1 = 0 := by
  obtain ⟨evs, r⟩ := a
  cases r with
  | error e => simpa [andThen] using ha
  | ok s => simp only [andThen, restoreCount_append]; simp_all

theorem snapshotStep_restore_free (stage : DevelopmentStage) (env : StageEnv)
    (s : WorkflowState) : restoreCount (snapshotStep stage env s).1 = 0 := by
  unfold snapshotStep
  split <;> rfl

theorem claudeStep_restore_free (stage : DevelopmentStage) (env : StageEnv)
    (s : WorkflowState) : restoreCount (claudeStep stage env s).1 = 0 := by
  unfold claudeStep
  rcases executeClaudeCode stage.prompt env.claudeExec env.filesModified
      env.gitStats env.claudeDuration with m | r <;> rfl

theorem verificationStep_restore_free (stage : DevelopmentStage) (env : StageEnv)
    (s : WorkflowState) : restoreCount (verificationStep stage env s).1 = 0 := by
  unfold verificationStep
  split_ifs <;> rfl

theorem approvalStep_restore_free (deadline : Nat) (stage : DevelopmentStage)
    (env : StageEnv) (s : WorkflowState) :
    restoreCount (approvalStep deadline stage env s).1 = 0 := by
  unfold approvalStep
  split
  · split <;> rfl
  · rfl

theorem metricsStep_restore_free (stage : DevelopmentStage) (s : WorkflowState) :
    restoreCount (metricsStep stage s).1 = 0 := by
  unfold metricsStep cooldownStep
  split <;> rfl

theorem processStage_restore_free (deadline : Nat) (stage : DevelopmentStage)
    (env : StageEnv) (s : WorkflowState) :
    restoreCount (processStage deadline stage env s).1 = 0 := by
  unfold processStage
  refine restoreCount_andThen _ _ (snapshotStep_restore_free stage env _) fun s2 => ?_
  refine restoreCount_andThen _ _ (claudeStep_restore_free stage env s2) fun s3 => ?_
  refine restoreCount_andThen _ _ (verificationStep_restore_free stage env s3) fun s4 => ?_
  refine restoreCount_andThen _ _ (approvalStep_restore_free deadline stage env s4) fun s5 => ?_
  exact metricsStep_restore_free stage s5

theorem runStagesLoop_restore_free (deadline : Nat)
    (pairs : List (DevelopmentStage × StageEnv)) (s : WorkflowState) :
    restoreCount (runStagesLoop deadline pairs s).1 = 0 := by
  induction pairs generalizing s with
  | nil => rfl
  | cons p rest ih =>
      obtain ⟨stage, env⟩ := p
      unfold runStagesLoop
      rcases h : processStage deadline stage env s with ⟨evs, r⟩
      have h0 : restoreCount evs = 0 := by
        have hp := processStage_restore_free deadline stage env s
        rw [h] at hp
        exact hp
      cases r with
      | error e => simpa [h] using h0
      | ok s2 =>
          rcases h2 : runStagesLoop deadline rest s2 with ⟨evs2, r2⟩
          have h02 : restoreCount evs2 = 0 := by
            have hl := ih s2
            rw [h2] at hl
            exact hl
          simp [h, h2, restoreCount_append, h0, h02]

theorem workflow_restore_free (deadline : Nat)
    (pairs : List (DevelopmentStage × StageEnv))
    (ft : Except String (Option JestReport)) (fd : Nat) :
    restoreCount (developLLMWrapperWorkflow deadline pairs ft fd).1 = 0 := by
  unfold developLLMWrapperWorkflow
  rcases h : runStagesLoop deadline pairs initState with ⟨evs, r⟩
  have h0 : restoreCount evs = 0 := by
    have hl := runStagesLoop_restore_free deadline pairs initState
    rw [h] at hl
    exact hl
  cases r with
  | error e =>
      obtain ⟨s, msg⟩ := e
      show restoreCount
          (evs ++ [EngineEvent.failureMetrics s.currentStage s.totalTokensUsed s.totalCost]) = 0
      rw [restoreCount_append, h0]
      rfl
  | ok s =>
      show restoreCount
          (if (runTests ft fd).success = true then (evs, RunOutcome.completed s)
           else (evs ++ [EngineEvent.failureMetrics s.currentStage s.totalTokensUsed s.totalCost],
                 RunOutcome.failed s "Final test suite failed")).1 = 0
      split
      · exact h0
      · show restoreCount
            (evs ++ [EngineEvent.failureMetrics s.currentStage s.totalTokensUsed s.totalCost]) = 0
        rw [restoreCount_append, h0]
        rfl

theorem pricing_cases (m : String) (p : ℚ × ℚ) (h : pricing m = some p) :
    p = (3 / 1000, 15 / 1000) ∨ p = (15 / 1000, 75 / 1000) := by
  unfold pricing at h
  split at h <;> simp_all

theorem calculateCost_nonneg (tokens : Nat) (m : String) :
    0 ≤ calculateCost tokens m := by
  unfold calculateCost
  have hbase : (0 : ℚ) ≤ ((tokens : ℚ) / 1000) := by positivity
  rcases h : pricing m with _ | p
  · simp only [h, Option.getD_none, Option.getD_some, pricing]
    apply mul_nonneg hbase
    norm_num
  · simp only [h, Option.getD_some]
    rcases pricing_cases m p h with h1 | h1 <;> subst h1 <;>
      apply mul_nonneg hbase <;> norm_num

theorem executeClaudeCode_cost_nonneg {prompt : String}
    {er : Except String String} {files : List String} {stats : Nat × Nat}
    {dur : Nat} {r : ClaudeCodeResult}
    (h : executeClaudeCode prompt er files stats dur = .ok r) : 0 ≤ r.cost := by
  unfold executeClaudeCode at h
  cases er with
  | error m => simp at h
  | ok stdout =>
      simp only [Except.ok.injEq] at h
      rw [← h]
      exact calculateCost_nonneg _ _

theorem counterLe_refl (s : WorkflowState) : counterLe s s :=
  ⟨le_refl _, le_refl _, le_refl _⟩

theorem counterLe_trans {a b c : WorkflowState} (h1 : counterLe a b)
    (h2 : counterLe b c) : counterLe a c :=
  ⟨h1.1.trans h2.1, h1.2.1.trans h2.2.1, h1.2.2.trans h2.2.2⟩

theorem counterLe_andThen {a : List EngineEvent × Except StageError WorkflowState}
    {f : WorkflowState → List EngineEvent × Except StageError WorkflowState}
    (s : WorkflowState) (ha : counterLe s (resultState a.2))
    (hf : ∀ t, counterLe t (resultState (f t).2)) :
    counterLe s (resultState (andThen a f).2) := by
  obtain ⟨evs, r⟩ := a
  cases r with
  | error e => exact ha
  | ok t => exact counterLe_trans ha (hf t)

theorem snapshotStep_counters (stage : DevelopmentStage) (env : StageEnv)
    (s : WorkflowState) : counterLe s (resultState (snapshotStep stage env s).2) := by
  unfold snapshotStep
  split <;> exact ⟨le_refl _, le_refl _, le_refl _⟩

theorem claudeStep_counters (stage : DevelopmentStage) (env : StageEnv)
    (s : WorkflowState) : counterLe s (resultState (claudeStep stage env s).2) := by
  unfold claudeStep
  rcases h : executeClaudeCode stage.prompt env.claudeExec env.filesModified
      env.gitStats env.claudeDuration with m | r
  · exact counterLe_refl s
  · refine ⟨Nat.le_add_right _ _, ?_, le_refl _⟩
    show s.totalCost ≤ s.totalCost + r.cost
    have := executeClaudeCode_cost_nonneg h
    linarith

theorem verificationStep_counters (stage : DevelopmentStage) (env : StageEnv)
    (s : WorkflowState) :
    counterLe s (resultState (verificationStep stage env s).2) := by
  unfold verificationStep
  split_ifs <;>
    first
      | exact counterLe_refl s
      | exact ⟨le_refl _, le_refl _, Nat.le_succ _⟩

theorem approvalStep_counters (deadline : Nat) (stage : DevelopmentStage)
    (env : StageEnv) (s : WorkflowState) :
    counterLe s (resultState (approvalStep deadline stage env s).2) := by
  unfold approvalStep
  split_ifs <;> exact ⟨le_refl _, le_refl _, le_refl _⟩

theorem metricsStep_counters (stage : DevelopmentStage) (s : WorkflowState) :
    counterLe s (resultState (metricsStep stage s).2) :=
  counterLe_refl s

theorem processStage_counters (deadline : Nat) (stage : DevelopmentStage)
    (env : StageEnv) (s : WorkflowState) :
    counterLe s (resultState (processStage deadline stage env s).2) := by
  unfold processStage
  refine counterLe_andThen s
    (counterLe_trans ⟨le_refl _, le_refl _, le_refl _⟩
      (snapshotStep_counters stage env (enterStage stage s))) fun s2 => ?_
  refine counterLe_andThen s2 (claudeStep_counters stage env s2) fun s3 => ?_
  refine counterLe_andThen s3 (verificationStep_counters stage env s3) fun s4 => ?_
  refine counterLe_andThen s4 (approvalStep_counters deadline stage env s4) fun s5 => ?_
  exact metricsStep_counters stage s5

theorem runStagesLoop_cons_error (deadline : Nat) (stage : DevelopmentStage)
    (env : StageEnv) (rest : List (DevelopmentStage × StageEnv))
    (s : WorkflowState) (evs : List EngineEvent) (e : StageError)
    (h : processStage deadline stage env s = (evs, .error e)) :
    runStagesLoop deadline ((stage, env) :: rest) s = (evs, .error e) := by
  unfold runStagesLoop
  rw [h]

theorem runStagesLoop_cons_ok (deadline : Nat) (stage : DevelopmentStage)
    (env : StageEnv) (rest : List (DevelopmentStage × StageEnv))
    (s : WorkflowState) (evs : List EngineEvent) (s2 : WorkflowState)
    (h : processStage deadline stage env s = (evs, .ok s2)) :
    runStagesLoop deadline ((stage, env) :: rest) s =
      (evs ++ (runStagesLoop deadline rest s2).1, (runStagesLoop deadline rest s2).2) := by
  rcases hr : runStagesLoop deadline rest s2 with ⟨evs2, r2⟩
  show (match processStage deadline stage env s with
        | (evs, .error e) => (evs, .error e)
        | (evs, .ok s2) =>
            match runStagesLoop deadline rest s2 with
            | (evs2, r) => (evs ++ evs2, r)) = (evs ++ evs2, r2)
  rw [h]
  show (match runStagesLoop deadline rest s2 with
        | (evs2, r) => (evs ++ evs2, r)) = (evs ++ evs2, r2)
  rw [hr]

theorem runStagesLoop_counters (deadline : Nat)
    (pairs : List (DevelopmentStage × StageEnv)) (s : WorkflowState) :
    counterLe s (resultState (runStagesLoop deadline pairs s).2) := by
  induction pairs generalizing s with
  | nil => exact counterLe_refl s
  | cons p rest ih =>
      obtain ⟨stage, env⟩ := p
      rcases h : processStage deadline stage env s with ⟨evs, r⟩
      have hc := processStage_counters deadline stage env s
      rw [h] at hc
      cases r with
      | error e =>
          rw [runStagesLoop_cons_error deadline stage env rest s evs e h]
          exact hc
      | ok s2 =>
          rw [runStagesLoop_cons_ok deadline stage env rest s evs s2 h]
          exact counterLe_trans hc (ih s2)

theorem workflow_counters (deadline : Nat)
    (pairs : List (DevelopmentStage × StageEnv))
    (ft : Except String (Option JestReport)) (fd : Nat) :
    counterLe initState
      (outcomeState (developLLMWrapperWorkflow deadline pairs ft fd).2) := by
  unfold developLLMWrapperWorkflow
  rcases h : runStagesLoop deadline pairs initState with ⟨evs, r⟩
  have hc := runStagesLoop_counters deadline pairs initState
  rw [h] at hc
  cases r with
  | error e =>
      obtain ⟨s, msg⟩ := e
      exact hc
  | ok s =>
      show counterLe initState
        (outcomeState
          (if (runTests ft fd).success = true then (evs, RunOutcome.completed s)
           else (evs ++ [EngineEvent.failureMetrics s.currentStage s.totalTokensUsed s.totalCost],
                 RunOutcome.failed s "Final test suite failed")).2)
      split <;> exact hc

theorem exceptOk_eq_true {α β : Type} {x : Except α β} (h : exceptOk x = true) :
    ∃ v, x = .ok v := by
  cases x with
  | ok v => exact ⟨v, rfl⟩
  | error e => simp [exceptOk] at h

theorem andThen_pair_ok (evs : List EngineEvent) (t : WorkflowState)
    (f : WorkflowState → List EngineEvent × Except StageError WorkflowState) :
    andThen (evs, .ok t) f = (evs ++ (f t).1, (f t).2) := rfl

theorem andThen_of_ok {a : List EngineEvent × Except StageError WorkflowState}
    {f : WorkflowState → List EngineEvent × Except StageError WorkflowState}
    {t : WorkflowState} (h : a.2 = .ok t) :
    andThen a f = (a.1 ++ (f t).1, (f t).2) := by
  obtain ⟨evs, r⟩ := a
  cases r with
  | error e => simp at h
  | ok u =>
      simp only [Except.ok.injEq] at h
      subst h
      rfl

theorem andThen_of_error {a : List EngineEvent × Except StageError WorkflowState}
    {f : WorkflowState → List EngineEvent × Except StageError WorkflowState}
    {e : StageError} (h : a.2 = .error e) :
    andThen a f = (a.1, .error e) := by
  obtain ⟨evs, r⟩ := a
  cases r with
  | ok u => simp at h
  | error e2 =>
      simp only [Except.error.injEq] at h
      subst h
      rfl

theorem runningNames_append (a b : List EngineEvent) :
    runningNames (a ++ b) = runningNames a ++ runningNames b := by
  simp [runningNames, List.filterMap_append]

theorem runningNames_failure (a : String) (b : Nat) (c : ℚ) :
    runningNames [EngineEvent.failureMetrics a b c] = [] := rfl

theorem snapshotStep_ok (stage : DevelopmentStage) (env : StageEnv)
    (s : WorkflowState) : ∃ t, (snapshotStep stage env s).2 = .ok t := by
  unfold snapshotStep
  split <;> exact ⟨_, rfl⟩

theorem snapshotStep_running (stage : DevelopmentStage) (env : StageEnv)
    (s : WorkflowState) : runningNames (snapshotStep stage env s).1 = [stage.name] := by
  unfold snapshotStep
  split <;> rfl

theorem verificationStep_ok (stage : DevelopmentStage) (env : StageEnv)
    (t : WorkflowState)
    (h : stage.name = "documentation" ∨
      (runTests env.testCmd env.testDuration).success = true) :
    ∃ t2, (verificationStep stage env t).2 = .ok t2 ∧
      runningNames (verificationStep stage env t).1 = [] := by
  unfold verificationStep
  by_cases hd : stage.name = "documentation"
  · rw [if_pos hd]
    exact ⟨t, rfl, rfl⟩
  · have hs : (runTests env.testCmd env.testDuration).success = true := h.resolve_left hd
    rw [if_neg hd, if_pos hs]
    exact ⟨_, rfl, rfl⟩

theorem approvalStep_no_gate (deadline : Nat) (stage : DevelopmentStage)
    (env : StageEnv) (t : WorkflowState) (hA : stage.requiresApproval = false) :
    approvalStep deadline stage env t = ([], .ok t) := by
  unfold approvalStep
  rw [hA]
  rfl

theorem metricsStep_running (stage : DevelopmentStage) (t : WorkflowState) :
    runningNames (metricsStep stage t).1 = [] := by
  unfold metricsStep cooldownStep
  split <;> rfl

theorem processStage_success (deadline : Nat) (stage : DevelopmentStage)
    (env : StageEnv) (s : WorkflowState)
    (hA : stage.requiresApproval = false)
    (hS : stageSucceeds (stage, env) = true) :
    ∃ s2, (processStage deadline stage env s).2 = .ok s2 ∧
      runningNames (processStage deadline stage env s).1 = [stage.name] := by
  have hS2 := hS
  unfold stageSucceeds at hS2
  rw [Bool.and_eq_true, Bool.or_eq_true] at hS2
  obtain ⟨hexec, htest⟩ := hS2
  obtain ⟨r, hr⟩ := exceptOk_eq_true hexec
  obtain ⟨t1, ht1⟩ := snapshotStep_ok stage env (enterStage stage s)
  have hclaude : claudeStep stage env t1 =
      ([.usageRecorded r.tokensUsed r.cost],
       .ok { t1 with totalTokensUsed := t1.totalTokensUsed + r.tokensUsed,
                     totalCost := t1.totalCost + r.cost }) := by
    unfold claudeStep
    rw [hr]
  have htest2 : stage.name = "documentation" ∨
      (runTests env.testCmd env.testDuration).success = true := by
    rcases htest with h | h
    · exact Or.inl (by simpa using h)
    · exact Or.inr h
  obtain ⟨t3, ht3, hrun3⟩ := verificationStep_ok stage env
    { t1 with totalTokensUsed := t1.totalTokensUsed + r.tokensUsed,
              totalCost := t1.totalCost + r.cost } htest2
  unfold processStage
  rw [andThen_of_ok ht1, hclaude, andThen_pair_ok, andThen_of_ok ht3,
    approvalStep_no_gate deadline stage env t3 hA, andThen_pair_ok]
  refine ⟨t3, rfl, ?_⟩
  simp only [runningNames_append, snapshotStep_running, hrun3, metricsStep_running]
  rfl

theorem runStagesLoop_success (deadline : Nat)
    (pairs : List (DevelopmentStage × StageEnv)) :
    (∀ p ∈ pairs, p.1.requiresApproval = false) →
    (∀ p ∈ pairs, stageSucceeds p = true) →
    ∀ s, ∃ sN, (runStagesLoop deadline pairs s).2 = .ok sN ∧
      runningNames (runStagesLoop deadline pairs s).1 =
        pairs.map fun p => p.1.name := by
  induction pairs with
  | nil => exact fun _ _ s => ⟨s, rfl, rfl⟩
  | cons p rest ih =>
      intro hA hS s
      obtain ⟨stage, env⟩ := p
      obtain ⟨s2, hok, hrun⟩ := processStage_success deadline stage env s
        (hA _ (List.mem_cons_self _ _)) (hS _ (List.mem_cons_self _ _))
      have hfull : processStage deadline stage env s =
          ((processStage deadline stage env s).1, .ok s2) := by
        rw [← hok]
      obtain ⟨sN, hN, hrunN⟩ := ih
        (fun q hq => hA q (List.mem_cons_of_mem _ hq))
        (fun q hq => hS q (List.mem_cons_of_mem _ hq)) s2
      rw [runStagesLoop_cons_ok deadline stage env rest s _ s2 hfull]
      refine ⟨sN, hN, ?_⟩
      rw [runningNames_append, hrun, hrunN]
      rfl

theorem workflow_final (deadline : Nat)
    (pairs : List (DevelopmentStage × StageEnv))
    (ft : Except String (Option JestReport)) (fd : Nat) (sN : WorkflowState)
    (h : runStagesLoop deadline pairs initState =
      ((runStagesLoop deadline pairs initState).1, .ok sN)) :
    developLLMWrapperWorkflow deadline pairs ft fd =
      (if (runTests ft fd).success = true
       then ((runStagesLoop deadline pairs initState).1, RunOutcome.completed sN)
       else ((runStagesLoop deadline pairs initState).1 ++
              [EngineEvent.failureMetrics sN.currentStage sN.totalTokensUsed
                sN.totalCost],
             RunOutcome.failed sN "Final test suite failed")) := by
  conv_lhs => unfold developLLMWrapperWorkflow
  rw [h]

theorem workflow_of_loop_error (deadline : Nat)
    (pairs : List (DevelopmentStage × StageEnv))
    (ft : Except String (Option JestReport)) (fd : Nat)
    (evs : List EngineEvent) (s : WorkflowState) (msg : String)
    (h : runStagesLoop deadline pairs initState = (evs, .error (s, msg))) :
    developLLMWrapperWorkflow deadline pairs ft fd =
      (evs ++ [.failureMetrics s.currentStage s.totalTokensUsed s.totalCost],
       .failed s msg) := by
  unfold developLLMWrapperWorkflow
  rw [h]

theorem snapshotStep_totals (stage : DevelopmentStage) (env : StageEnv)
    (t : WorkflowState) :
    (resultState (snapshotStep stage env t).2).totalTokensUsed = t.totalTokensUsed ∧
    (resultState (snapshotStep stage env t).2).totalCost = t.totalCost := by
  unfold snapshotStep
  split <;> exact ⟨rfl, rfl⟩

theorem verificationStep_totals (stage : DevelopmentStage) (env : StageEnv)
    (t : WorkflowState) :
    (resultState (verificationStep stage env t).2).totalTokensUsed = t.totalTokensUsed ∧
    (resultState (verificationStep stage env t).2).totalCost = t.totalCost := by
  unfold verificationStep
  split_ifs <;> exact ⟨rfl, rfl⟩

theorem approvalStep_totals (deadline : Nat) (stage : DevelopmentStage)
    (env : StageEnv) (t : WorkflowState) :
    (resultState (approvalStep deadline stage env t).2).totalTokensUsed =
      t.totalTokensUsed ∧
    (resultState (approvalStep deadline stage env t).2).totalCost = t.totalCost := by
  unfold approvalStep
  split_ifs <;> exact ⟨rfl, rfl⟩

theorem promiseAll_ok_map {α β : Type} (l : List α) (g : α → β) :
    promiseAll (l.map fun x => Except.ok (g x)) = .ok (l.map g) := by
  induction l with
  | nil => rfl
  | cons x xs ih => simp [promiseAll, ih]

theorem developBranch_ok (feature : String) (index : Nat) (env : BranchEnv)
    (h : branchAdaptersOk env = true) :
    developBranch feature index env =
      .ok { feature := feature, branch := branchNameOf index feature,
            success := (runTests env.testCmd env.testDuration).success } := by
  unfold branchAdaptersOk at h
  rw [Bool.and_eq_true] at h
  obtain ⟨v1, hv1⟩ := exceptOk_eq_true h.1
  obtain ⟨v2, hv2⟩ := exceptOk_eq_true h.2
  unfold developBranch
  rw [hv1, hv2]
  rfl

/-! Claim theorems. -/

/-- C1: the claim says a failing critical-path stage triggers exactly one
restore call to the most recent snapshot before the instance fails.  The
source logs the snapshot id but contains no restore invocation at all:
every run of the engine performs zero restore calls, and on the concrete
failing input (critical stage `scaffold`, snapshot created, post-stage
tests fail) the run ends failed with the snapshot recorded and zero
restore calls. -/
theorem c1_critical_failure_performs_no_restore :
    (∀ deadline pairs ft fd,
       restoreCount (developLLMWrapperWorkflow deadline pairs ft fd).1 = 0) ∧
    isCompleted c1Run.2 = false ∧
    (outcomeState c1Run.2).snapshots = ["snapshot-7"] ∧
    EngineEvent.snapshotCreated "snapshot-7" ∈ c1Run.1 ∧
    EngineEvent.testsRun "scaffold" false ∈ c1Run.1 ∧
    restoreCount c1Run.1 = 0 := by
  refine ⟨workflow_restore_free, ?_, ?_, ?_, ?_, ?_⟩ <;> decide

/-- C2: for every spec whose stages require no approval and all succeed,
the run enters `Running` exactly once per stage, in spec order, and the
outcome is `Completed` exactly when the final verification run
succeeds. -/
theorem c2_success_runs_each_stage_once_then_final_gate (deadline : Nat)
    (pairs : List (DevelopmentStage × StageEnv))
    (ft : Except String (Option JestReport)) (fd : Nat)
    (hA : ∀ p ∈ pairs, p.1.requiresApproval = false)
    (hS : ∀ p ∈ pairs, stageSucceeds p = true) :
    runningNames (developLLMWrapperWorkflow deadline pairs ft fd).1 =
        pairs.map (fun p => p.1.name) ∧
    ((runTests ft fd).success = true →
       isCompleted (developLLMWrapperWorkflow deadline pairs ft fd).2 = true) ∧
    ((runTests ft fd).success = false →
       isCompleted (developLLMWrapperWorkflow deadline pairs ft fd).2 = false) := by
  obtain ⟨sN, hok, hrun⟩ := runStagesLoop_success deadline pairs hA hS initState
  have hfull : runStagesLoop deadline pairs initState =
      ((runStagesLoop deadline pairs initState).1, .ok sN) := by
    rw [← hok]
  rw [workflow_final deadline pairs ft fd sN hfull]
  refine ⟨?_, ?_, ?_⟩
  · split
    · exact hrun
    · rw [runningNames_append, hrun, runningNames_failure]
      simp
  · intro hft
    rw [if_pos hft]
    rfl
  · intro hft
    rw [if_neg (by simp [hft])]
    rfl

/-- Witness for C2: the concrete two-stage spec `c2Pairs` with a passing
final validation runs `alpha` then `beta` exactly once each and
completes. -/
theorem c2_witness :
    runningNames (developLLMWrapperWorkflow 3600 c2Pairs passingTest 1).1 =
      ["alpha", "beta"] ∧
    isCompleted (developLLMWrapperWorkflow 3600 c2Pairs passingTest 1).2 = true := by
  have h := c2_success_runs_each_stage_once_then_final_gate 3600 c2Pairs
    passingTest 1 (by decide) (by decide)
  exact ⟨h.1.trans (by decide), h.2.1 (by decide)⟩

/-- C4: recording the same approval decision twice leaves the workflow
state, and hence the gate verdict the engine branches on, identical to
recording it once. -/
theorem c4_record_decision_idempotent (d : Bool) (s : WorkflowState) :
    recordDecision d (recordDecision d s) = recordDecision d s ∧
    approvalVerdict (recordDecision d (recordDecision d s)) =
      approvalVerdict (recordDecision d s) := by
  cases d <;> exact ⟨rfl, rfl⟩

/-- C5 counterexample: an error of the "malformed input" kind raised on
every attempt leads to 3 invocation attempts under the configured retry
policy, not exactly one. -/
theorem c5_counterexample_malformed_input_retried :
    attemptsTaken workflowRetryConfig
      (fun _ => some ("malformed input", "bad request")) = 3 := by
  decide

/-- C5 amended: the configuration classifies no error kind as
non-retryable, so a persistently failing do-work call is attempted
exactly `maximumAttempts` (3) times regardless of its error kind. -/
theorem c5_every_error_kind_retried_to_max (kind msg : String) :
    workflowRetryConfig.nonRetryableErrorTypes = [] ∧
    attemptsTaken workflowRetryConfig (fun _ => some (kind, msg)) =
      workflowRetryConfig.maximumAttempts ∧
    workflowRetryConfig.maximumAttempts = 3 := by
  refine ⟨rfl, ?_, rfl⟩
  simp [attemptsTaken, workflowRetryConfig, retryGo]

/-- C6: the accumulated usage counters (tokens, cost, tests passed)
never decrease: across one loop iteration, across the stage loop, and
across a complete run from the initial state, for any sequence of
successes and failures. -/
theorem c6_usage_totals_monotone (deadline : Nat) :
    (∀ stage env s,
       counterLe s (resultState (processStage deadline stage env s).2)) ∧
    (∀ pairs s, counterLe s (resultState (runStagesLoop deadline pairs s).2)) ∧
    (∀ pairs ft fd,
       counterLe initState
         (outcomeState (developLLMWrapperWorkflow deadline pairs ft fd).2)) :=
  ⟨processStage_counters deadline, runStagesLoop_counters deadline,
   workflow_counters deadline⟩

/-- C9: snapshot creation always returns the derived snapshot id, even
when the underlying git commands fail or there is nothing to commit, and
a snapshot failure is invisible to the rest of the stage: processing a
stage with a failing git snapshot is identical to processing it with a
successful one. -/
theorem c9_snapshot_total_and_nonfatal (now : Nat) (git : Except String Unit)
    (m : String) (deadline : Nat) (stage : DevelopmentStage) (env : StageEnv)
    (s : WorkflowState) :
    createSnapshot now git = "snapshot-" ++ toString now ∧
    0 < (createSnapshot now git).length ∧
    processStage deadline stage { env with gitSnapshot := .error m } s =
      processStage deadline stage { env with gitSnapshot := .ok () } s := by
  refine ⟨?_, ?_, ?_⟩
  · cases git <;> rfl
  · cases git <;>
      · show 0 < ("snapshot-" ++ toString now).length
        rw [String.length_append]
        have h9 : "snapshot-".length = 9 := by decide
        omega
  · rfl

/-- C10 counterexample: when the test command succeeds but its stdout
does not parse, `runTests` reports success with a zero failed count, not
a failure with a positive failed count. -/
theorem c10_counterexample_unparseable_output :
    (runTests (.ok none) 5).success = true ∧
    (runTests (.ok none) 5).failed = 0 ∧
    "Failed to parse test results" ∈ (runTests (.ok none) 5).errors := by
  decide

/-- C10 amended: `runTests` is total at its interface; a failing test
command yields success `false`, failed count 1 and the message in
`errors`; a successful command with unparseable stdout yields success
`true`, failed count 0 and a fixed parse-failure message in `errors`;
in every case the success flag is true exactly when the failed count is
zero. -/
theorem c10_runTests_total_and_flag_matches_failed :
    (∀ m d, runTests (.error m) d =
       { success := false, totalTests := 0, passed := 0, failed := 1,
         duration := d, errors := [m] }) ∧
    (∀ d, runTests (.ok none) d =
       { success := true, totalTests := 0, passed := 0, failed := 0,
         duration := d, errors := ["Failed to parse test results"] }) ∧
    (∀ inp d, (runTests inp d).success = ((runTests inp d).failed == 0)) := by
  refine ⟨fun m d => rfl, fun d => rfl, fun inp d => ?_⟩
  cases inp with
  | ok o => cases o <;> rfl
  | error m => rfl

/-- C3: at an approval gate, a missing signal resolves the wait at
exactly the deadline (not earlier, not indefinitely) with no decision
and throws; a rejection delivered by the deadline throws the identical
error; the thrown error terminates the stage loop immediately, so no
later stage runs and the gate is never retried; and a loop error
surfaces as the `Failed` terminal outcome of the run. -/
theorem c3_timeout_and_rejection_both_fail (deadline : Nat)
    (stage : DevelopmentStage) (env : StageEnv) (s : WorkflowState)
    (hA : stage.requiresApproval = true) :
    (env.approvalSignal = none →
       approvalStep deadline stage env s =
         ([.awaitingApproval stage.name deadline],
          .error ({ s with approved := none },
                  "Stage " ++ stage.name ++ " rejected by developer"))) ∧
    (∀ t, t ≤ deadline → env.approvalSignal = some (t, false) →
       approvalStep deadline stage env s =
         ([.awaitingApproval stage.name t],
          .error ({ s with approved := some false },
                  "Stage " ++ stage.name ++ " rejected by developer"))) ∧
    (∀ rest s2 evs e, processStage deadline stage env s2 = (evs, .error e) →
       runStagesLoop deadline ((stage, env) :: rest) s2 = (evs, .error e)) ∧
    (∀ pairs ft fd evs s2 msg,
       runStagesLoop deadline pairs initState = (evs, .error (s2, msg)) →
       (developLLMWrapperWorkflow deadline pairs ft fd).2 = .failed s2 msg) := by
  refine ⟨?_, ?_, ?_, ?_⟩
  · intro hsig
    unfold approvalStep
    rw [hA, hsig]
    rfl
  · intro t ht hsig
    unfold approvalStep
    rw [hA, hsig]
    simp only [conditionWait]
    rw [if_pos ht]
    rfl
  · intro rest s2 evs e h
    exact runStagesLoop_cons_error deadline stage env rest s2 evs e h
  · intro pairs ft fd evs s2 msg h
    unfold developLLMWrapperWorkflow
    rw [h]

/-- Witness for C3: the concrete gate stage `c3Stage` with no signal
delivered resolves at exactly the 3600 s deadline and throws the
rejection error. -/
theorem c3_witness :
    approvalStep 3600 c3Stage c3Env initState =
      ([.awaitingApproval "core-implementation" 3600],
       .error ({ initState with approved := none },
               "Stage core-implementation rejected by developer")) := by
  have h :=
    (c3_timeout_and_rejection_both_fail 3600 c3Stage c3Env initState rfl).1 rfl
  exact h.trans (by decide)

/-- C7: whenever the do-work call of a stage returns a usage record, the
instance totals after the iteration include exactly that usage, whether
the iteration then continues, fails verification or is rejected at the
gate; the usage-recorded event is in the iteration trace; and every
failed run ends with a failure-metrics record carrying the totals of
the failed state. -/
theorem c7_usage_fed_to_aggregation_regardless (deadline : Nat)
    (stage : DevelopmentStage) (env : StageEnv) (s : WorkflowState)
    (r : ClaudeCodeResult)
    (h : executeClaudeCode stage.prompt env.claudeExec env.filesModified
      env.gitStats env.claudeDuration = .ok r) :
    (resultState (processStage deadline stage env s).2).totalTokensUsed =
        s.totalTokensUsed + r.tokensUsed ∧
    (resultState (processStage deadline stage env s).2).totalCost =
        s.totalCost + r.cost ∧
    EngineEvent.usageRecorded r.tokensUsed r.cost ∈
      (processStage deadline stage env s).1 ∧
    (∀ pairs ft fd evs s2 msg,
       developLLMWrapperWorkflow deadline pairs ft fd = (evs, .failed s2 msg) →
       evs.getLast? = some (.failureMetrics s2.currentStage s2.totalTokensUsed
         s2.totalCost)) := by
  have hlast : ∀ pairs ft fd evs s2 msg,
      developLLMWrapperWorkflow deadline pairs ft fd = (evs, .failed s2 msg) →
      evs.getLast? = some (.failureMetrics s2.currentStage s2.totalTokensUsed
        s2.totalCost) := by
    intro pairs ft fd evs s2 msg hW
    rcases hl : runStagesLoop deadline pairs initState with ⟨evsL, rL⟩
    cases rL with
    | error e =>
        obtain ⟨sE, msgE⟩ := e
        rw [workflow_of_loop_error deadline pairs ft fd evsL sE msgE hl] at hW
        rw [Prod.mk.injEq] at hW
        obtain ⟨hE, hO⟩ := hW
        injection hO with hs hm
        subst hs
        subst hE
        rw [List.getLast?_concat]
    | ok sO =>
        have hfull : runStagesLoop deadline pairs initState =
            ((runStagesLoop deadline pairs initState).1, .ok sO) := by
          rw [hl]
        rw [workflow_final deadline pairs ft fd sO hfull] at hW
        split at hW
        · rw [Prod.mk.injEq] at hW
          exact absurd hW.2 (by simp)
        · rw [Prod.mk.injEq] at hW
          obtain ⟨hE, hO⟩ := hW
          injection hO with hs hm
          subst hs
          subst hE
          rw [List.getLast?_concat]
  obtain ⟨t1, ht1⟩ := snapshotStep_ok stage env (enterStage stage s)
  have ht1tot : t1.totalTokensUsed = s.totalTokensUsed ∧
      t1.totalCost = s.totalCost := by
    have hx := snapshotStep_totals stage env (enterStage stage s)
    rw [ht1] at hx
    exact hx
  have hclaude : claudeStep stage env t1 =
      ([.usageRecorded r.tokensUsed r.cost],
       .ok { t1 with totalTokensUsed := t1.totalTokensUsed + r.tokensUsed,
                     totalCost := t1.totalCost + r.cost }) := by
    unfold claudeStep
    rw [h]
  unfold processStage
  simp only [andThen_of_ok ht1, hclaude, andThen_pair_ok]
  have hvt := verificationStep_totals stage env
    { t1 with totalTokensUsed := t1.totalTokensUsed + r.tokensUsed,
              totalCost := t1.totalCost + r.cost }
  rcases hv : (verificationStep stage env
      { t1 with totalTokensUsed := t1.totalTokensUsed + r.tokensUsed,
                totalCost := t1.totalCost + r.cost }).2 with e | t3
  · rw [hv] at hvt
    simp only [andThen_of_error hv]
    refine ⟨?_, ?_, ?_, hlast⟩
    · exact hvt.1.trans (by rw [ht1tot.1])
    · exact hvt.2.trans (by rw [ht1tot.2])
    · simp [List.mem_append]
  · rw [hv] at hvt
    simp only [andThen_of_ok hv]
    have hat := approvalStep_totals deadline stage env t3
    rcases ha : (approvalStep deadline stage env t3).2 with e2 | t4
    · rw [ha] at hat
      simp only [andThen_of_error ha]
      refine ⟨?_, ?_, ?_, hlast⟩
      · exact (hat.1.trans hvt.1).trans (by rw [ht1tot.1])
      · exact (hat.2.trans hvt.2).trans (by rw [ht1tot.2])
      · simp [List.mem_append]
    · rw [ha] at hat
      simp only [andThen_of_ok ha]
      refine ⟨?_, ?_, ?_, hlast⟩
      · exact (hat.1.trans hvt.1).trans (by rw [ht1tot.1])
      · exact (hat.2.trans hvt.2).trans (by rw [ht1tot.2])
      · simp [List.mem_append]

/-- Witness for C7: on the concrete failing critical stage input, the
usage of the do-work call (1 token, cost 9/1000000) is added to the
instance totals even though the stage ends in failure. -/
theorem c7_witness :
    (resultState (processStage 3600 c1Stage c1Env initState).2).totalTokensUsed = 1 ∧
    (resultState (processStage 3600 c1Stage c1Env initState).2).totalCost =
      9 / 1000000 := by
  have h := c7_usage_fed_to_aggregation_regardless 3600 c1Stage c1Env initState
    { output := "q", tokensUsed := estimateTokens ("p" ++ "q"),
      cost := calculateCost (estimateTokens ("p" ++ "q")) "claude-sonnet-4-5",
      duration := 5, filesModified := ["a.ts"], linesAdded := 1,
      linesRemoved := 0 } rfl
  constructor
  · rw [h.1]
    decide
  · rw [h.2.1]
    show (0 : ℚ) + calculateCost 1 "claude-sonnet-4-5" = 9 / 1000000
    norm_num [calculateCost, pricing]

/-- C8 counterexample: with three branches whose middle branch has a
rejecting do-work adapter call, the joined result of the coordinator is
that rejection, not a list with one record per branch: sibling results
are lost. -/
theorem c8_counterexample_adapter_rejection_loses_join :
    parallelFeatureDevelopment c8Features c8RejectEnvs =
      .error "Claude Code execution failed: boom" ∧
    exceptOk (parallelFeatureDevelopment c8Features c8RejectEnvs) = false := by
  constructor <;> decide

/-- C8 amended: when every branch adapter call fulfills, the joined
result has exactly one record per branch, each carrying that branch
identifier and a success flag equal to that branch own test outcome —
never an aggregate boolean, and independent of the sibling branches. -/
theorem c8_per_branch_join_when_adapters_fulfill (features : List String)
    (envs : List BranchEnv)
    (h : ∀ p ∈ (features.zip envs).enum, branchAdaptersOk p.2.2 = true) :
    parallelFeatureDevelopment features envs =
      .ok ((features.zip envs).enum.map fun p =>
        { feature := p.2.1, branch := branchNameOf p.1 p.2.1,
          success := (runTests p.2.2.testCmd p.2.2.testDuration).success }) := by
  unfold parallelFeatureDevelopment
  have hmap : ((features.zip envs).enum.map fun p => developBranch p.2.1 p.1 p.2.2)
      = (features.zip envs).enum.map (fun p => Except.ok
          { feature := p.2.1, branch := branchNameOf p.1 p.2.1,
            success := (runTests p.2.2.testCmd p.2.2.testDuration).success }) :=
    List.map_congr_left fun p hp => developBranch_ok p.2.1 p.1 p.2.2 (h p hp)
  rw [hmap]
  exact promiseAll_ok_map _ _

/-- Witness for C8 amended: three branches with fulfilled adapters where
branch 1 always fails verification join to three per-branch records,
branch 1 marked failed and branches 0 and 2 per their own outcome. -/
theorem c8_witness :
    parallelFeatureDevelopment c8Features c8OkEnvs =
      .ok [{ feature := "alpha", branch := "feature-0-alpha", success := true },
           { feature := "beta", branch := "feature-1-beta", success := false },
           { feature := "gamma", branch := "feature-2-gamma", success := true }] := by
  have h := c8_per_branch_join_when_adapters_fulfill c8Features c8OkEnvs (by decide)
  exact h.trans (by decide)

end ClaudeTemporal

